import Mathlib

/-!
Verification of the rust-uniswap-pools pipeline (src/src/main.rs): a shallow
embedding of the event decoder, the token-metadata cache and the enrichment
loop, together with theorems about the spec's testable properties.

Conventions of the embedding:
  - H160 addresses and 256-bit words are natural numbers;
  - a Rust unwrap that can panic is modelled by Option (none is a panic);
  - the external token-contract caller is an oracle parameter
    (an address and a method name give an optional string; none is a
    failed or invalid call);
  - the ethabi library call Event::parse_log is not part of this
    repository; it is modelled from the spec (section 4.2).
-/

namespace UniswapPools

/-- An Ethereum H160 address, modelled as a natural number. -/
abbrev Addr := Nat

/-- A 256-bit word: one log topic, or one 32-byte slot of the data payload. -/
abbrev Word := Nat

/-- A parameter type of the event schema, as in ethabi ParamType
(only the variants the schema in src/src/main.rs lines 126-152 uses). -/
inductive ParamType where
  | address : ParamType
  | uint : Nat → ParamType
  | int : Nat → ParamType
deriving DecidableEq

/-- One named parameter of an event schema, as in ethabi EventParam. -/
structure EventParam where
  name : String
  kind : ParamType
  indexed : Bool
deriving DecidableEq

/-- An event schema, as in ethabi Event. -/
structure Event where
  name : String
  inputs : List EventParam
  anonymous : Bool
deriving DecidableEq

/-- A decoded value, as in ethabi Token; the int variant stores the raw
256-bit word, as ethabi's Token::Int(U256) does. -/
inductive Token where
  | address : Addr → Token
  | uint : Nat → Token
  | int : Nat → Token
deriving DecidableEq

/-- Token::into_address: some only on an address token. -/
def Token.into_address : Token → Option Addr
  | .address a => some a
  | _ => none

/-- Token::into_uint: some only on an unsigned-integer token. -/
def Token.into_uint : Token → Option Nat
  | .uint n => some n
  | _ => none

/-- Token::into_int: some only on a signed-integer token (raw word). -/
def Token.into_int : Token → Option Nat
  | .int n => some n
  | _ => none

/-- U256::as_usize: succeeds exactly when the value fits in a 64-bit usize;
the panic on overflow is modelled as none. -/
def as_usize (n : Nat) : Option Nat :=
  if n < 2 ^ 64 then some n else none

/-- One decoded named parameter of a log, as in ethabi LogParam. -/
structure LogParam where
  name : String
  value : Token
deriving DecidableEq

/-- A decoded log: the list of named parameters, as in ethabi Log. -/
structure Log where
  params : List LogParam
deriving DecidableEq

/-- The topic/data view of a raw log entry handed to the decoder, as in
ethabi RawLog; the data payload is word-aligned (static types only). -/
structure RawLog where
  topics : List Word
  data : List Word
deriving DecidableEq

/-- First value bound to a name in a list of named tokens. -/
def lookupNamed (nm : String) : List (String × Token) → Option Token
  | [] => none
  | p :: rest => if p.1 = nm then some p.2 else lookupNamed nm rest

/-- Decodes a single 32-byte word at a schema type, as the ABI decoder does
for static types: an address is the low 160 bits of the word; fixed-width
integers take the whole word (the declared width is not re-checked). -/
def decodeWord : ParamType → Word → Token
  | .address, w => .address (w % 2 ^ 160)
  | .uint _, w => .uint w
  | .int _, w => .int w

/-- Diagnostic for a topics-shape mismatch. -/
def errTopics : String := "invalid topics: length does not match the schema"

/-- Diagnostic for a data-shape mismatch. -/
def errData : String := "invalid data: length does not match the schema"

/-- Modelled from the spec: ethabi Event::parse_log (a library call, not part
of this repository). Per spec section 4.2, decoding checks that the topics
(after the leading signature topic of a non-anonymous event) and the data
payload match the shapes the schema expects, failing per entry otherwise,
and produces a mapping from parameter name to typed value: indexed
parameters come from the topics in order, the rest from the data. -/
def parse_log (e : Event) (r : RawLog) : Except String Log :=
  let topicParams := e.inputs.filter (fun p => p.indexed)
  let dataParams := e.inputs.filter (fun p => !p.indexed)
  let skip := if e.anonymous then 0 else 1
  if r.topics.length ≠ topicParams.length + skip then .error errTopics
  else if r.data.length ≠ dataParams.length then .error errData
  else
    let named :=
      List.zipWith (fun (p : EventParam) w => (p.name, decodeWord p.kind w))
        topicParams (r.topics.drop skip) ++
      List.zipWith (fun (p : EventParam) w => (p.name, decodeWord p.kind w))
        dataParams r.data
    let ps := e.inputs.filterMap
      (fun p => (lookupNamed p.name named).map (fun t => LogParam.mk p.name t))
    .ok { params := ps }

/-- The decoded PoolCreated domain event (src lines 64-72); every field
defaults to zero, as derive(Default) gives. -/
structure PoolCreatedEvent where
  token0 : Addr := 0
  token1 : Addr := 0
  fee : Nat := 0
  tick_spacing : Nat := 0
  pool : Addr := 0
  block_number : Nat := 0
deriving DecidableEq

/-- PoolCreatedEvent::from_log (src lines 74-91): starts from the default
event and folds over the decoded params, matching on the parameter name;
an unrecognized name is skipped; each type-coercion unwrap is modelled by
Option (none is a panic). -/
def PoolCreatedEvent.from_log (log : Log) : Option PoolCreatedEvent :=
  log.params.foldlM (fun pe param =>
    match param.name with
    | "token0" => (param.value.into_address).map (fun a => { pe with token0 := a })
    | "token1" => (param.value.into_address).map (fun a => { pe with token1 := a })
    | "fee" => ((param.value.into_uint).bind as_usize).map (fun n => { pe with fee := n })
    | "tick_spacing" =>
        ((param.value.into_int).bind as_usize).map (fun n => { pe with tick_spacing := n })
    | "pool" => (param.value.into_address).map (fun a => { pe with pool := a })
    | _ => some pe) {}

/-- Token metadata (src lines 93-98). -/
structure TokenInfo where
  name : String
  symbol : String
  address : Addr
deriving DecidableEq

/-- The external token-contract caller: a token address and a read-only
method name give the decoded string, or none when the call fails or
returns invalid data. -/
abbrev Oracle := Addr → String → Option String

/-- The method name queried for the display name. -/
def nameMethod : String := "name"

/-- The method name queried for the ticker symbol. -/
def symbolMethod : String := "symbol"

/-- caller (src lines 103-109): query the contract and fall back to the
type's default, the empty string, when the call errors (unwrap_or_default). -/
def caller (result : Option String) : String := result.getD ""

/-- get_token_info (src lines 100-119): two independent external calls, one
for the display name and one for the ticker symbol, each defaulted to the
empty string on failure; the address field is set to the queried address. -/
def get_token_info (oracle : Oracle) (addr : Addr) : TokenInfo :=
  { name := caller (oracle addr nameMethod)
    symbol := caller (oracle addr symbolMethod)
    address := addr }

/-- The output row (src lines 24-35). -/
structure PoolInfo where
  pool_addr : Addr
  token0_name : String
  token0_symbol : String
  token1_name : String
  token1_symbol : String
  fee : Nat
  token0_addr : Addr
  token1_addr : Addr
  block_number : Nat
deriving DecidableEq

/-- HashMap::get over the association-list model of HashMap<H160, TokenInfo>. -/
def cacheGet (c : List (Addr × TokenInfo)) (k : Addr) : Option TokenInfo :=
  (c.find? (fun p => p.1 == k)).map (fun p => p.2)

/-- HashMap::contains_key over the association-list model. -/
def cacheContains (c : List (Addr × TokenInfo)) (k : Addr) : Bool :=
  c.any (fun p => p.1 == k)

/-- PoolInfo::from_pool_created_event (src lines 37-61): the four
token_infos.get(..).unwrap() lookups are modelled by Option (none is a
panic); the row joins the event fields with the two cached metadata
entries. -/
def PoolInfo.from_pool_created_event (event : PoolCreatedEvent)
    (token_infos : List (Addr × TokenInfo)) : Option PoolInfo := do
  let t0 ← cacheGet token_infos event.token0
  let t1 ← cacheGet token_infos event.token1
  some { pool_addr := event.pool
         token0_name := t0.name
         token0_symbol := t0.symbol
         token1_name := t1.name
         token1_symbol := t1.symbol
         fee := event.fee
         token0_addr := event.token0
         token1_addr := event.token1
         block_number := event.block_number }

/-- A raw log entry as returned by the chain source (web3 types::Log):
topics, word-aligned data payload, and an optional block number. -/
structure RawLogEntry where
  topics : List Word
  data : List Word
  block_number : Option Nat
deriving DecidableEq

/-- The PoolCreated schema built in parse_logs_data (src lines 126-157):
token0, token1 and fee are indexed; tickSpacing and pool sit in the data
payload; note the parameter name is tickSpacing, with no underscore. -/
def uniswapEvent : Event :=
  { name := "PoolCreated"
    inputs :=
      [ { name := "token0", kind := .address, indexed := true }
      , { name := "token1", kind := .address, indexed := true }
      , { name := "fee", kind := .uint 24, indexed := true }
      , { name := "tickSpacing", kind := .int 24, indexed := false }
      , { name := "pool", kind := .address, indexed := false } ]
    anonymous := false }

/-- The mutable state of the enrichment loop (src lines 160-190): the
token-metadata cache, the rows serialized so far, the addresses resolved
externally so far (in order; each resolution is the pair of external calls
of get_token_info), and the decode diagnostics printed so far. -/
structure PipeState where
  token_infos : List (Addr × TokenInfo)
  records : List PoolInfo
  resolutions : List Addr
  diagnostics : List String
deriving DecidableEq

/-- The state at loop entry: empty cache, no rows, nothing resolved. -/
def initState : PipeState :=
  { token_infos := [], records := [], resolutions := [], diagnostics := [] }

/-- The check-then-resolve idiom of src lines 182-187: if the address is not
yet a key of the cache, run get_token_info and insert the result keyed by
the address, recording the external resolution; otherwise do nothing. -/
def resolveToken (oracle : Oracle) (st : PipeState) (addr : Addr) : PipeState :=
  if cacheContains st.token_infos addr then st
  else
    { st with
      token_infos := st.token_infos ++ [(addr, get_token_info oracle addr)]
      resolutions := st.resolutions ++ [addr] }

/-- The tail of the loop body of parse_logs_data (src lines 182-189), run on
the decoded event whose block number is already set: resolve both token
addresses through the cache, construct the row, and serialize it. The
unwraps inside row construction are modelled by Option (none is a panic). -/
def processDecoded (oracle : Oracle) (st : PipeState) (pce : PoolCreatedEvent) :
    Option PipeState :=
  match PoolInfo.from_pool_created_event pce
      (resolveToken oracle (resolveToken oracle st pce.token0) pce.token1).token_infos with
  | none => none
  | some pi =>
    some { resolveToken oracle (resolveToken oracle st pce.token0) pce.token1 with
           records :=
             (resolveToken oracle (resolveToken oracle st pce.token0) pce.token1).records ++ [pi] }

/-- One iteration of the loop of parse_logs_data (src lines 164-190): parse
the raw entry against the schema; on a decode error print it and continue;
otherwise build the event, overwrite its block number from the raw entry
(0 when absent), and hand off to processDecoded. A panic anywhere gives
none. -/
def processLog (oracle : Oracle) (st : PipeState) (log : RawLogEntry) :
    Option PipeState :=
  match parse_log uniswapEvent { topics := log.topics, data := log.data } with
  | .error err => some { st with diagnostics := st.diagnostics ++ [err] }
  | .ok l =>
    match PoolCreatedEvent.from_log l with
    | none => none
    | some pce0 =>
      processDecoded oracle st { pce0 with block_number := log.block_number.getD 0 }

/-- The loop of parse_logs_data over the fetched entries, in source order. -/
def runLogs (oracle : Oracle) (logs : List RawLogEntry) (st : PipeState) :
    Option PipeState :=
  match logs with
  | [] => some st
  | log :: rest =>
    match processLog oracle st log with
    | none => none
    | some st' => runLogs oracle rest st'

/-- parse_logs_data (src lines 121-193), from the point the raw entries are
in hand: fold the loop body over the entries starting from the empty state. -/
def parse_logs_data (oracle : Oracle) (logs : List RawLogEntry) :
    Option PipeState :=
  runLogs oracle logs initState

/-- The header row the csv serializer derives from PoolInfo's field names. -/
def csvHeader : List String :=
  [ "pool_addr", "token0_name", "token0_symbol", "token1_name"
  , "token1_symbol", "fee", "token0_addr", "token1_addr", "block_number" ]

/-- One serialized csv row of a PoolInfo record. -/
def toRow (r : PoolInfo) : List String :=
  [ Nat.repr r.pool_addr, r.token0_name, r.token0_symbol, r.token1_name
  , r.token1_symbol, Nat.repr r.fee, Nat.repr r.token0_addr
  , Nat.repr r.token1_addr, Nat.repr r.block_number ]

/-- Modelled from the spec: the csv Writer collaborator writes the header
derived from the record's field names when the first record is serialized;
with no records it emits nothing, so the file written at src line 192 is an
empty (valid, zero-row) serialization. -/
def outputRows (st : PipeState) : List (List String) :=
  match st.records with
  | [] => []
  | rs => csvHeader :: rs.map toRow

/-- Whether a raw entry fails to decode against the PoolCreated schema. -/
def decodeFails (log : RawLogEntry) : Bool :=
  match parse_log uniswapEvent { topics := log.topics, data := log.data } with
  | .error _ => true
  | .ok _ => false

/-- Well-formedness invariant of the loop state: every cache entry stores the
address it is keyed by, the resolution trace lists exactly the cache keys in
insertion order, and no address is resolved twice. -/
def StateWF (st : PipeState) : Prop :=
  (∀ p ∈ st.token_infos, p.2.address = p.1) ∧
  st.resolutions = st.token_infos.map (fun p => p.1) ∧
  st.resolutions.Nodup

/-- A well-formed raw log for the PoolCreated schema: signature topic, then
token0 = 1, token1 = 2, fee = 3000 in the topics; tickSpacing = 60 and
pool = 5 in the data. -/
def rawC1 : RawLog := { topics := [0, 1, 2, 3000], data := [60, 5] }

/-- An oracle on which every external metadata call fails. -/
def oracleW : Oracle := fun _ _ => none

/-- A well-formed raw entry: token0 = 1, token1 = 2, fee = 500,
tickSpacing = 60, pool = 9, block 4. -/
def logW : RawLogEntry :=
  { topics := [0, 1, 2, 500], data := [60, 9], block_number := some 4 }

/-- A malformed raw entry: only three topics where the schema needs four. -/
def badLogW : RawLogEntry :=
  { topics := [0, 1, 2], data := [10, 100], block_number := some 7 }

/-- The row the pipeline emits for logW under oracleW. -/
def recW : PoolInfo :=
  { pool_addr := 9, token0_name := "", token0_symbol := "", token1_name := ""
    token1_symbol := "", fee := 500, token0_addr := 1, token1_addr := 2
    block_number := 4 }

/-- The pipeline state after processing [logW] under oracleW. -/
def stW : PipeState :=
  { token_infos :=
      [ (1, { name := "", symbol := "", address := 1 })
      , (2, { name := "", symbol := "", address := 2 }) ]
    records := [recW]
    resolutions := [1, 2]
    diagnostics := [] }

/-- A two-entry input: one well-formed entry and one malformed entry. -/
def logsW2 : List RawLogEntry := [logW, badLogW]

/-- The pipeline state after processing logsW2 under oracleW. -/
def stW2 : PipeState :=
  { token_infos :=
      [ (1, { name := "", symbol := "", address := 1 })
      , (2, { name := "", symbol := "", address := 2 }) ]
    records := [recW]
    resolutions := [1, 2]
    diagnostics := [errTopics] }

/-- A token display name used by the partially failing oracle. -/
def tokenNameW : String := "Wrapped Ether"

/-- An oracle whose name call succeeds and whose symbol call fails. -/
def oracle4 : Oracle := fun _ m => if m = nameMethod then some tokenNameW else none

/-- A decoded event whose two token addresses are absent from a given cache. -/
def pceW8 : PoolCreatedEvent :=
  { token0 := 4, token1 := 5, fee := 10, tick_spacing := 0, pool := 6, block_number := 1 }

/-- A decoded event whose token0 and token1 are the same address. -/
def pceW9 : PoolCreatedEvent :=
  { token0 := 3, token1 := 3, fee := 100, tick_spacing := 0, pool := 8, block_number := 2 }

/-- The row built from pceW9 once address 3 is resolved under oracleW. -/
def rW9 : PoolInfo :=
  { pool_addr := 8, token0_name := "", token0_symbol := "", token1_name := ""
    token1_symbol := "", fee := 100, token0_addr := 3, token1_addr := 3
    block_number := 2 }

/-- An oracle on which every call succeeds: the name of address a is its
decimal representation, its symbol that representation prefixed with S. -/
def oracle6 : Oracle := fun a m =>
  if m = nameMethod then some (Nat.repr a) else some (String.append "S" (Nat.repr a))

/-- Three raw entries: two well-formed PoolCreated events over the three
distinct token addresses 1, 2 and 3 (address 2 shared between both events),
and one malformed entry. -/
def logs6 : List RawLogEntry :=
  [ { topics := [0, 1, 2, 500], data := [10, 100], block_number := some 5 }
  , { topics := [0, 2, 3, 3000], data := [60, 101], block_number := some 6 }
  , { topics := [0, 1, 2], data := [10, 100], block_number := some 7 } ]

/-- The row emitted for the first entry of logs6. -/
def rec6a : PoolInfo :=
  { pool_addr := 100, token0_name := "1", token0_symbol := "S1", token1_name := "2"
    token1_symbol := "S2", fee := 500, token0_addr := 1, token1_addr := 2
    block_number := 5 }

/-- The row emitted for the second entry of logs6. -/
def rec6b : PoolInfo :=
  { pool_addr := 101, token0_name := "2", token0_symbol := "S2", token1_name := "3"
    token1_symbol := "S3", fee := 3000, token0_addr := 2, token1_addr := 3
    block_number := 6 }

/-- The pipeline state after processing logs6 under oracle6. -/
def st6 : PipeState :=
  { token_infos :=
      [ (1, { name := "1", symbol := "S1", address := 1 })
      , (2, { name := "2", symbol := "S2", address := 2 })
      , (3, { name := "3", symbol := "S3", address := 3 }) ]
    records := [rec6a, rec6b]
    resolutions := [1, 2, 3]
    diagnostics := [errTopics] }

theorem initState_wf : StateWF initState :=
  ⟨fun _ hp => absurd hp (List.not_mem_nil _), rfl, List.nodup_nil⟩

theorem cacheContains_false_iff (c : List (Addr × TokenInfo)) (k : Addr) :
    cacheContains c k = false ↔ ∀ p ∈ c, p.1 ≠ k := by
  simp [cacheContains]

theorem cacheGet_eq_none_of_not_contains (c : List (Addr × TokenInfo)) (k : Addr)
    (h : cacheContains c k = false) : cacheGet c k = none := by
  unfold cacheGet
  have hf : c.find? (fun p => p.1 == k) = none := by
    rw [List.find?_eq_none]
    intro p hp
    simpa using (cacheContains_false_iff c k).mp h p hp
  rw [hf]
  rfl

theorem cacheGet_isSome_of_contains (c : List (Addr × TokenInfo)) (k : Addr)
    (h : cacheContains c k = true) : (cacheGet c k).isSome = true := by
  unfold cacheContains at h
  rw [List.any_eq_true] at h
  obtain ⟨p, hp, hpk⟩ := h
  have hf : (c.find? (fun p => p.1 == k)).isSome = true :=
    List.find?_isSome.mpr ⟨p, hp, hpk⟩
  obtain ⟨q, hq⟩ := Option.isSome_iff_exists.mp hf
  simp [cacheGet, hq]

theorem cacheGet_append_left (c c' : List (Addr × TokenInfo)) (k : Addr) (v : TokenInfo)
    (h : cacheGet c k = some v) : cacheGet (c ++ c') k = some v := by
  unfold cacheGet at h ⊢
  rw [List.find?_append]
  cases hf : c.find? (fun p => p.1 == k) with
  | none => rw [hf] at h; exact absurd h (by simp)
  | some q => rw [hf] at h; simpa [Option.or] using h

theorem cacheGet_append_self (c : List (Addr × TokenInfo)) (k : Addr) (v : TokenInfo)
    (h : cacheContains c k = false) : cacheGet (c ++ [(k, v)]) k = some v := by
  unfold cacheGet
  rw [List.find?_append]
  have hf : c.find? (fun p => p.1 == k) = none := by
    rw [List.find?_eq_none]
    intro p hp
    simpa using (cacheContains_false_iff c k).mp h p hp
  rw [hf]
  simp [List.find?_cons, Option.or]

theorem resolveToken_records (o : Oracle) (st : PipeState) (a : Addr) :
    (resolveToken o st a).records = st.records := by
  unfold resolveToken
  split <;> rfl

theorem resolveToken_diagnostics (o : Oracle) (st : PipeState) (a : Addr) :
    (resolveToken o st a).diagnostics = st.diagnostics := by
  unfold resolveToken
  split <;> rfl

theorem resolveToken_of_contains (o : Oracle) (st : PipeState) (a : Addr)
    (h : cacheContains st.token_infos a = true) : resolveToken o st a = st := by
  unfold resolveToken
  simp [h]

theorem resolveToken_of_not_contains (o : Oracle) (st : PipeState) (a : Addr)
    (h : cacheContains st.token_infos a = false) :
    resolveToken o st a =
      { st with token_infos := st.token_infos ++ [(a, get_token_info o a)]
                resolutions := st.resolutions ++ [a] } := by
  unfold resolveToken
  simp [h]

theorem resolveToken_contains_self (o : Oracle) (st : PipeState) (a : Addr) :
    cacheContains (resolveToken o st a).token_infos a = true := by
  by_cases h : cacheContains st.token_infos a = true
  · rw [resolveToken_of_contains o st a h]
    exact h
  · rw [resolveToken_of_not_contains o st a (by simpa using h)]
    simp [cacheContains, List.any_append]

theorem resolveToken_get_mono (o : Oracle) (st : PipeState) (a k : Addr) (v : TokenInfo)
    (h : cacheGet st.token_infos k = some v) :
    cacheGet (resolveToken o st a).token_infos k = some v := by
  by_cases hc : cacheContains st.token_infos a = true
  · rw [resolveToken_of_contains o st a hc]
    exact h
  · rw [resolveToken_of_not_contains o st a (by simpa using hc)]
    exact cacheGet_append_left _ _ _ _ h

theorem resolveToken_get_isSome (o : Oracle) (st : PipeState) (a : Addr) :
    (cacheGet (resolveToken o st a).token_infos a).isSome = true :=
  cacheGet_isSome_of_contains _ _ (resolveToken_contains_self o st a)

theorem cacheWF_resolveToken (o : Oracle) (st : PipeState) (a : Addr)
    (h : ∀ p ∈ st.token_infos, p.2.address = p.1) :
    ∀ p ∈ (resolveToken o st a).token_infos, p.2.address = p.1 := by
  by_cases hc : cacheContains st.token_infos a = true
  · rw [resolveToken_of_contains o st a hc]
    exact h
  · rw [resolveToken_of_not_contains o st a (by simpa using hc)]
    intro p hp
    rcases List.mem_append.mp hp with hL | hR
    · exact h p hL
    · have hpa : p = (a, get_token_info o a) := by simpa using hR
      rw [hpa]
      rfl

theorem StateWF_resolveToken (o : Oracle) (st : PipeState) (a : Addr)
    (h : StateWF st) : StateWF (resolveToken o st a) := by
  obtain ⟨h1, h2, h3⟩ := h
  by_cases hc : cacheContains st.token_infos a = true
  · rw [resolveToken_of_contains o st a hc]
    exact ⟨h1, h2, h3⟩
  · have hc' : cacheContains st.token_infos a = false := by simpa using hc
    have hnotmem : a ∉ st.resolutions := by
      rw [h2]
      intro hmem
      obtain ⟨p, hp, hpk⟩ := List.mem_map.mp hmem
      exact (cacheContains_false_iff st.token_infos a).mp hc' p hp hpk
    rw [resolveToken_of_not_contains o st a hc']
    refine ⟨?_, ?_, ?_⟩
    · intro p hp
      rcases List.mem_append.mp hp with hL | hR
      · exact h1 p hL
      · have hpa : p = (a, get_token_info o a) := by simpa using hR
        rw [hpa]
        rfl
    · rw [List.map_append, h2]
      rfl
    · rw [List.nodup_append]
      refine ⟨h3, List.nodup_singleton a, ?_⟩
      intro x hx hx2
      have hxa : x = a := by simpa using hx2
      exact hnotmem (hxa ▸ hx)

theorem from_pool_created_event_none_left (pce : PoolCreatedEvent)
    (c : List (Addr × TokenInfo)) (h : cacheGet c pce.token0 = none) :
    PoolInfo.from_pool_created_event pce c = none := by
  unfold PoolInfo.from_pool_created_event
  simp [h]

theorem from_pool_created_event_none_right (pce : PoolCreatedEvent)
    (c : List (Addr × TokenInfo)) (h : cacheGet c pce.token1 = none) :
    PoolInfo.from_pool_created_event pce c = none := by
  unfold PoolInfo.from_pool_created_event
  cases h0 : cacheGet c pce.token0 <;> simp [h0, h]

theorem from_pool_created_event_isSome (pce : PoolCreatedEvent)
    (c : List (Addr × TokenInfo))
    (h0 : (cacheGet c pce.token0).isSome = true)
    (h1 : (cacheGet c pce.token1).isSome = true) :
    (PoolInfo.from_pool_created_event pce c).isSome = true := by
  obtain ⟨v0, hv0⟩ := Option.isSome_iff_exists.mp h0
  obtain ⟨v1, hv1⟩ := Option.isSome_iff_exists.mp h1
  unfold PoolInfo.from_pool_created_event
  simp [hv0, hv1]

theorem from_pool_created_event_fields (pce : PoolCreatedEvent)
    (c : List (Addr × TokenInfo)) (r : PoolInfo)
    (h : PoolInfo.from_pool_created_event pce c = some r) :
    r.block_number = pce.block_number ∧ r.pool_addr = pce.pool ∧
    r.fee = pce.fee ∧ r.token0_addr = pce.token0 ∧ r.token1_addr = pce.token1 := by
  unfold PoolInfo.from_pool_created_event at h
  cases h0 : cacheGet c pce.token0 with
  | none => rw [h0] at h; exact absurd h (by simp)
  | some v0 =>
    cases h1 : cacheGet c pce.token1 with
    | none => rw [h0, h1] at h; exact absurd h (by simp)
    | some v1 =>
      rw [h0, h1] at h
      have hr := Option.some.inj h
      rw [← hr]
      exact ⟨rfl, rfl, rfl, rfl, rfl⟩

theorem from_pool_created_event_same_token (pce : PoolCreatedEvent)
    (c : List (Addr × TokenInfo)) (r : PoolInfo) (he : pce.token0 = pce.token1)
    (h : PoolInfo.from_pool_created_event pce c = some r) :
    r.token0_name = r.token1_name ∧ r.token0_symbol = r.token1_symbol := by
  unfold PoolInfo.from_pool_created_event at h
  rw [he] at h
  cases h1 : cacheGet c pce.token1 with
  | none => rw [h1] at h; exact absurd h (by simp)
  | some v1 =>
    rw [h1] at h
    have hr := Option.some.inj h
    rw [← hr]
    exact ⟨rfl, rfl⟩

theorem processDecoded_shape (o : Oracle) (st : PipeState) (pce : PoolCreatedEvent)
    (st' : PipeState) (h : processDecoded o st pce = some st') :
    ∃ r, PoolInfo.from_pool_created_event pce
        (resolveToken o (resolveToken o st pce.token0) pce.token1).token_infos = some r ∧
      st' = { resolveToken o (resolveToken o st pce.token0) pce.token1 with
              records :=
                (resolveToken o (resolveToken o st pce.token0) pce.token1).records ++ [r] } := by
  unfold processDecoded at h
  cases hc : PoolInfo.from_pool_created_event pce
      (resolveToken o (resolveToken o st pce.token0) pce.token1).token_infos with
  | none => rw [hc] at h; exact absurd h (by simp)
  | some r =>
    rw [hc] at h
    exact ⟨r, rfl, (Option.some.inj h).symm⟩

theorem from_pool_after_resolve_isSome (o : Oracle) (st : PipeState)
    (pce : PoolCreatedEvent) :
    (PoolInfo.from_pool_created_event pce
      (resolveToken o (resolveToken o st pce.token0) pce.token1).token_infos).isSome
      = true := by
  have h0 : (cacheGet (resolveToken o (resolveToken o st pce.token0) pce.token1).token_infos
      pce.token0).isSome = true := by
    obtain ⟨v, hv⟩ := Option.isSome_iff_exists.mp
      (resolveToken_get_isSome o st pce.token0)
    rw [resolveToken_get_mono o (resolveToken o st pce.token0) pce.token1 pce.token0 v hv]
    rfl
  have h1 : (cacheGet (resolveToken o (resolveToken o st pce.token0) pce.token1).token_infos
      pce.token1).isSome = true :=
    resolveToken_get_isSome o (resolveToken o st pce.token0) pce.token1
  exact from_pool_created_event_isSome pce
    (resolveToken o (resolveToken o st pce.token0) pce.token1).token_infos h0 h1

theorem processDecoded_isSome (o : Oracle) (st : PipeState) (pce : PoolCreatedEvent) :
    (processDecoded o st pce).isSome = true := by
  obtain ⟨r, hr⟩ := Option.isSome_iff_exists.mp (from_pool_after_resolve_isSome o st pce)
  unfold processDecoded
  rw [hr]
  rfl

theorem processLog_error_shape (o : Oracle) (st : PipeState) (log : RawLogEntry)
    (st' : PipeState) (hd : decodeFails log = true)
    (h : processLog o st log = some st') :
    ∃ e, st' = { st with diagnostics := st.diagnostics ++ [e] } := by
  unfold processLog at h
  unfold decodeFails at hd
  split at h
  · rename_i e hp
    exact ⟨e, (Option.some.inj h).symm⟩
  · rename_i l hp
    rw [hp] at hd
    exact absurd hd (by simp)

theorem processLog_ok_shape (o : Oracle) (st : PipeState) (log : RawLogEntry)
    (st' : PipeState) (hd : decodeFails log = false)
    (h : processLog o st log = some st') :
    ∃ pce r,
      pce.block_number = log.block_number.getD 0 ∧
      PoolInfo.from_pool_created_event pce
        (resolveToken o (resolveToken o st pce.token0) pce.token1).token_infos = some r ∧
      st' = { resolveToken o (resolveToken o st pce.token0) pce.token1 with
              records :=
                (resolveToken o (resolveToken o st pce.token0) pce.token1).records ++ [r] } := by
  unfold processLog at h
  unfold decodeFails at hd
  split at h
  · rename_i e hp
    rw [hp] at hd
    exact absurd hd (by simp)
  · rename_i l hp
    split at h
    · exact absurd h (by simp)
    · rename_i pce0 hf
      obtain ⟨r, hr, hst⟩ := processDecoded_shape o st _ st' h
      exact ⟨{ pce0 with block_number := log.block_number.getD 0 }, r, rfl, hr, hst⟩

theorem processLog_count (o : Oracle) (st : PipeState) (log : RawLogEntry)
    (st' : PipeState) (h : processLog o st log = some st') :
    (decodeFails log = true ∧ st'.records = st.records ∧
      st'.token_infos = st.token_infos ∧ st'.resolutions = st.resolutions ∧
      st'.diagnostics.length = st.diagnostics.length + 1) ∨
    (decodeFails log = false ∧ st'.records.length = st.records.length + 1 ∧
      st'.diagnostics = st.diagnostics) := by
  cases hd : decodeFails log with
  | true =>
    obtain ⟨e, hst⟩ := processLog_error_shape o st log st' hd h
    left
    rw [hst]
    exact ⟨rfl, rfl, rfl, rfl, by simp⟩
  | false =>
    obtain ⟨pce, r, _, _, hst⟩ := processLog_ok_shape o st log st' hd h
    right
    rw [hst]
    refine ⟨rfl, ?_, ?_⟩
    · show ((resolveToken o (resolveToken o st pce.token0) pce.token1).records ++ [r]).length
        = st.records.length + 1
      rw [List.length_append, resolveToken_records, resolveToken_records]
      rfl
    · show (resolveToken o (resolveToken o st pce.token0) pce.token1).diagnostics
        = st.diagnostics
      rw [resolveToken_diagnostics, resolveToken_diagnostics]

theorem StateWF_processLog (o : Oracle) (st : PipeState) (log : RawLogEntry)
    (st' : PipeState) (hwf : StateWF st) (h : processLog o st log = some st') :
    StateWF st' := by
  cases hd : decodeFails log with
  | true =>
    obtain ⟨e, hst⟩ := processLog_error_shape o st log st' hd h
    rw [hst]
    exact ⟨hwf.1, hwf.2.1, hwf.2.2⟩
  | false =>
    obtain ⟨pce, r, _, _, hst⟩ := processLog_ok_shape o st log st' hd h
    rw [hst]
    have hwf2 := StateWF_resolveToken o (resolveToken o st pce.token0) pce.token1
      (StateWF_resolveToken o st pce.token0 hwf)
    exact ⟨hwf2.1, hwf2.2.1, hwf2.2.2⟩

theorem runLogs_wf (o : Oracle) :
    ∀ (logs : List RawLogEntry) (st st' : PipeState), StateWF st →
      runLogs o logs st = some st' → StateWF st'
  | [], st, st', hwf, h => by
    unfold runLogs at h
    exact (Option.some.inj h) ▸ hwf
  | log :: rest, st, st', hwf, h => by
    unfold runLogs at h
    cases hp : processLog o st log with
    | none => rw [hp] at h; exact absurd h (by simp)
    | some st1 =>
      rw [hp] at h
      exact runLogs_wf o rest st1 st' (StateWF_processLog o st log st1 hwf hp) h

theorem runLogs_count (o : Oracle) :
    ∀ (logs : List RawLogEntry) (st st' : PipeState),
      runLogs o logs st = some st' →
      st'.records.length + logs.countP decodeFails = st.records.length + logs.length ∧
      st'.diagnostics.length = st.diagnostics.length + logs.countP decodeFails
  | [], st, st', h => by
    unfold runLogs at h
    have hst := Option.some.inj h
    rw [← hst]
    simp [List.countP_nil]
  | log :: rest, st, st', h => by
    unfold runLogs at h
    cases hp : processLog o st log with
    | none => rw [hp] at h; exact absurd h (by simp)
    | some st1 =>
      rw [hp] at h
      obtain ⟨ih1, ih2⟩ := runLogs_count o rest st1 st' h
      rw [List.countP_cons]
      rcases processLog_count o st log st1 hp with
        ⟨hd, hrec, _, _, hdg⟩ | ⟨hd, hrec, hdg⟩
      · have hrl : st1.records.length = st.records.length := by rw [hrec]
        simp only [List.length_cons]
        rw [if_pos hd]
        constructor <;> omega
      · have hdl : st1.diagnostics.length = st.diagnostics.length := by rw [hdg]
        simp only [List.length_cons]
        rw [if_neg (by simp [hd])]
        constructor <;> omega

/-- C1: on the well-formed raw log rawC1, whose decoded parameter list binds
the name tickSpacing to the integer 60, the composed decoder (parse_log then
PoolCreatedEvent::from_log) populates token0, token1, fee and pool from the
matching topic/data values, but leaves tick_spacing at its default 0: the
from_log arm matches the name tick_spacing while the schema (and the decoded
log) name the parameter tickSpacing, so the value 60 is silently dropped. -/
theorem tick_spacing_never_populated :
    (parse_log uniswapEvent rawC1).toOption.bind
        (fun l => (l.params.find? (fun p => p.name == "tickSpacing")).map
          (fun p => p.value)) = some (Token.int 60) ∧
    (parse_log uniswapEvent rawC1).toOption.bind PoolCreatedEvent.from_log =
      some { token0 := 1, token1 := 2, fee := 3000, tick_spacing := 0, pool := 5,
             block_number := 0 } := by
  constructor <;> rfl

/-- C2: whenever the pipeline run completes on an input sequence, the number
of emitted records plus the number of printed decode diagnostics equals the
input length, and the diagnostics count exactly the entries failing to
decode against the schema — so each malformed entry is reported, produces no
record (not even a partial one), and decreases the output length by exactly
one relative to the input length while the pipeline continues. -/
theorem decode_failure_skips_entry (oracle : Oracle) (logs : List RawLogEntry)
    (st : PipeState) (h : parse_logs_data oracle logs = some st) :
    st.records.length + st.diagnostics.length = logs.length ∧
    st.diagnostics.length = logs.countP decodeFails := by
  obtain ⟨h1, h2⟩ := runLogs_count oracle logs initState st h
  have e1 : initState.records.length = 0 := rfl
  have e2 : initState.diagnostics.length = 0 := rfl
  constructor <;> omega

/-- C2 witness: on the two-entry input logsW2 (one well-formed entry, one
malformed entry) the run yields one record and one diagnostic. -/
theorem decode_failure_skips_entry_witness :
    stW2.records.length + stW2.diagnostics.length = logsW2.length ∧
    stW2.diagnostics.length = logsW2.countP decodeFails :=
  decode_failure_skips_entry oracleW logsW2 stW2 (by decide)

/-- C3: in any completed pipeline run no address is ever resolved twice (the
resolution trace has no duplicates), and re-resolving an address already in
the cache is a no-op: it performs zero additional external calls and leaves
the cache, hence the value returned for that address, identical. -/
theorem cache_resolves_at_most_once (oracle : Oracle) (logs : List RawLogEntry)
    (st : PipeState) (h : parse_logs_data oracle logs = some st) :
    st.resolutions.Nodup ∧
    ∀ a, cacheContains st.token_infos a = true → resolveToken oracle st a = st := by
  have hwf := runLogs_wf oracle logs initState st initState_wf h
  exact ⟨hwf.2.2, fun a ha => resolveToken_of_contains oracle st a ha⟩

/-- C3 witness: after running [logW], the resolution trace [1, 2] has no
duplicates and re-resolving the cached address 1 changes nothing. -/
theorem cache_resolves_at_most_once_witness :
    stW.resolutions.Nodup ∧ resolveToken oracleW stW 1 = stW :=
  ⟨(cache_resolves_at_most_once oracleW [logW] stW (by decide)).1,
   (cache_resolves_at_most_once oracleW [logW] stW (by decide)).2 1 (by decide)⟩

/-- C4: metadata resolution is total and per-field best-effort: when the name
call succeeds and the symbol call fails, the resolved metadata keeps the
resolved name and substitutes the empty string for the symbol (and
symmetrically); and resolution never aborts the pipeline — resolving any
address always leaves it cached. -/
theorem metadata_failure_defaults_single_field (oracle : Oracle) (addr : Addr) :
    (∀ s, oracle addr nameMethod = some s → oracle addr symbolMethod = none →
       get_token_info oracle addr = { name := s, symbol := "", address := addr }) ∧
    (∀ s, oracle addr nameMethod = none → oracle addr symbolMethod = some s →
       get_token_info oracle addr = { name := "", symbol := s, address := addr }) ∧
    ∀ st, cacheContains (resolveToken oracle st addr).token_infos addr = true := by
  refine ⟨?_, ?_, fun st => resolveToken_contains_self oracle st addr⟩
  · intro s hn hs
    unfold get_token_info
    rw [hn, hs]
    rfl
  · intro s hn hs
    unfold get_token_info
    rw [hn, hs]
    rfl

/-- C4 witness: under oracle4 (name succeeds, symbol fails) address 7
resolves to a non-empty name and an empty symbol, and is cached. -/
theorem metadata_failure_defaults_single_field_witness :
    get_token_info oracle4 7 = { name := tokenNameW, symbol := "", address := 7 } ∧
    cacheContains (resolveToken oracle4 initState 7).token_infos 7 = true :=
  ⟨(metadata_failure_defaults_single_field oracle4 7).1 tokenNameW (by decide) (by decide),
   (metadata_failure_defaults_single_field oracle4 7).2.2 initState⟩

/-- C5: whenever one loop iteration emits a record, that record's block
number is the raw entry's own block-number field, with 0 substituted when
the field is absent — never a decoded parameter value. -/
theorem block_number_from_raw_entry (oracle : Oracle) (st : PipeState)
    (log : RawLogEntry) (st' : PipeState) (r : PoolInfo)
    (h : processLog oracle st log = some st')
    (hr : st'.records = st.records ++ [r]) :
    r.block_number = log.block_number.getD 0 ∧
    (log.block_number = none → r.block_number = 0) := by
  cases hd : decodeFails log with
  | true =>
    obtain ⟨e, hst⟩ := processLog_error_shape oracle st log st' hd h
    rw [hst] at hr
    have hlen := congrArg List.length hr
    rw [List.length_append] at hlen
    simp at hlen
  | false =>
    obtain ⟨pce, rr, hb, hsome, hst⟩ := processLog_ok_shape oracle st log st' hd h
    rw [hst] at hr
    have hrec2 : (resolveToken oracle (resolveToken oracle st pce.token0) pce.token1).records
        = st.records := by rw [resolveToken_records, resolveToken_records]
    dsimp only at hr
    rw [hrec2] at hr
    have hrr : rr = r := by simpa using List.append_cancel_left hr
    have hfields := from_pool_created_event_fields pce _ rr hsome
    have hbn : r.block_number = log.block_number.getD 0 := by
      rw [← hrr, hfields.1, hb]
    refine ⟨hbn, fun hn => ?_⟩
    rw [hbn, hn]
    rfl

/-- C5 witness: the record emitted for logW carries logW's block number 4. -/
theorem block_number_from_raw_entry_witness :
    recW.block_number = logW.block_number.getD 0 ∧
    (logW.block_number = none → recW.block_number = 0) :=
  block_number_from_raw_entry oracleW initState logW stW recW (by decide) (by decide)

/-- C6: on the three-entry input logs6 (two valid PoolCreated events over the
three distinct token addresses 1, 2, 3, with address 2 shared between both
events, plus one malformed entry) the pipeline emits exactly the two records
rec6a and rec6b, performs exactly the three metadata resolutions [1, 2, 3]
(not four: the shared address 2 is resolved once), reports one diagnostic
for the malformed entry, and the shared token's metadata is identical in
both records. -/
theorem end_to_end_three_entries :
    parse_logs_data oracle6 logs6 = some st6 ∧
    st6.records = [rec6a, rec6b] ∧
    st6.records.length = 2 ∧
    st6.diagnostics.length = 1 ∧
    st6.resolutions = [1, 2, 3] ∧
    st6.resolutions.count 2 = 1 ∧
    rec6a.token1_addr = rec6b.token0_addr ∧
    rec6a.token1_name = rec6b.token0_name ∧
    rec6a.token1_symbol = rec6b.token0_symbol := by
  refine ⟨by decide, rfl, rfl, rfl, rfl, by decide, rfl, rfl, rfl⟩

/-- C7: on the empty input sequence the pipeline completes in its initial
state, performs zero metadata resolutions, and the serialized output has no
rows at all — an empty but valid serialization with no data rows. -/
theorem empty_input_empty_output (oracle : Oracle) :
    parse_logs_data oracle [] = some initState ∧
    initState.resolutions = [] ∧
    outputRows initState = [] :=
  ⟨rfl, rfl, rfl⟩

/-- C7 witness: the statement instantiated at the all-failing oracle. -/
theorem empty_input_empty_output_witness :
    parse_logs_data oracleW [] = some initState ∧
    initState.resolutions = [] ∧
    outputRows initState = [] :=
  empty_input_empty_output oracleW

/-- C8: constructing a PoolInfo record fails (the lookup unwraps panic) when
either token address of the event is absent from the cache; and at the
pipeline's construction site, reached only after both addresses have been
resolved through the cache, construction always succeeds — the failing
lookups are unreachable there. -/
theorem record_construction_requires_cached_tokens :
    (∀ (pce : PoolCreatedEvent) (c : List (Addr × TokenInfo)),
       cacheContains c pce.token0 = false ∨ cacheContains c pce.token1 = false →
       PoolInfo.from_pool_created_event pce c = none) ∧
    (∀ (oracle : Oracle) (st : PipeState) (pce : PoolCreatedEvent),
       (PoolInfo.from_pool_created_event pce
         (resolveToken oracle (resolveToken oracle st pce.token0) pce.token1).token_infos).isSome
         = true) := by
  constructor
  · intro pce c h
    rcases h with h | h
    · exact from_pool_created_event_none_left pce c (cacheGet_eq_none_of_not_contains _ _ h)
    · exact from_pool_created_event_none_right pce c (cacheGet_eq_none_of_not_contains _ _ h)
  · exact fun oracle st pce => from_pool_after_resolve_isSome oracle st pce

/-- C8 witness: against the empty cache the construction for pceW8 fails,
and after the pipeline's two resolve steps it succeeds. -/
theorem record_construction_requires_cached_tokens_witness :
    PoolInfo.from_pool_created_event pceW8 [] = none ∧
    (PoolInfo.from_pool_created_event pceW8
      (resolveToken oracleW (resolveToken oracleW initState pceW8.token0)
        pceW8.token1).token_infos).isSome = true :=
  ⟨record_construction_requires_cached_tokens.1 pceW8 [] (Or.inl (by decide)),
   record_construction_requires_cached_tokens.2 oracleW initState pceW8⟩

/-- C9: for a decoded event whose token0 and token1 coincide and are not yet
cached, the pipeline's two resolve steps perform exactly one external
resolution of that address, and any record constructed from the event has
its token0 name and symbol equal to its token1 name and symbol. -/
theorem same_token_single_resolution (oracle : Oracle) (st : PipeState)
    (pce : PoolCreatedEvent) (he : pce.token0 = pce.token1)
    (hc : cacheContains st.token_infos pce.token0 = false) :
    (resolveToken oracle (resolveToken oracle st pce.token0) pce.token1).resolutions
      = st.resolutions ++ [pce.token0] ∧
    ∀ r, PoolInfo.from_pool_created_event pce
        (resolveToken oracle (resolveToken oracle st pce.token0) pce.token1).token_infos
        = some r →
      r.token0_name = r.token1_name ∧ r.token0_symbol = r.token1_symbol := by
  have h1 : resolveToken oracle (resolveToken oracle st pce.token0) pce.token1
      = resolveToken oracle st pce.token0 := by
    apply resolveToken_of_contains
    rw [← he]
    exact resolveToken_contains_self oracle st pce.token0
  constructor
  · rw [h1, resolveToken_of_not_contains oracle st pce.token0 hc]
  · intro r hr
    exact from_pool_created_event_same_token pce _ r he hr

/-- C9 witness: for pceW9 (token0 = token1 = 3, nothing cached) exactly one
resolution of address 3 happens and the row rW9 has equal token0/token1
metadata. -/
theorem same_token_single_resolution_witness :
    (resolveToken oracleW (resolveToken oracleW initState pceW9.token0)
        pceW9.token1).resolutions = initState.resolutions ++ [pceW9.token0] ∧
    (rW9.token0_name = rW9.token1_name ∧ rW9.token0_symbol = rW9.token1_symbol) :=
  ⟨(same_token_single_resolution oracleW initState pceW9 rfl (by decide)).1,
   (same_token_single_resolution oracleW initState pceW9 rfl (by decide)).2 rW9 (by decide)⟩

/-- C10: the token-metadata cache maps each address key to a TokenInfo whose
own address field equals that key: the invariant is preserved by every
insertion (each resolve step), and it holds of the cache of every completed
pipeline run. -/
theorem cache_key_matches_stored_address (oracle : Oracle) :
    (∀ (st : PipeState) (a : Addr),
       (∀ p ∈ st.token_infos, p.2.address = p.1) →
       ∀ p ∈ (resolveToken oracle st a).token_infos, p.2.address = p.1) ∧
    (∀ (logs : List RawLogEntry) (st : PipeState),
       parse_logs_data oracle logs = some st →
       ∀ p ∈ st.token_infos, p.2.address = p.1) := by
  constructor
  · exact fun st a h => cacheWF_resolveToken oracle st a h
  · exact fun logs st h => (runLogs_wf oracle logs initState st initState_wf h).1

/-- C10 witness: in the cache produced by running [logW], the entry keyed by
address 1 stores a TokenInfo whose address field is 1. -/
theorem cache_key_matches_stored_address_witness :
    (TokenInfo.mk "" "" 1).address = 1 :=
  (cache_key_matches_stored_address oracleW).2 [logW] stW (by decide)
    (1, TokenInfo.mk "" "" 1) (by decide)

end UniswapPools
